import Mathlib

/-!
Verification of the QR label generator (`src/generate_labels.py`).

The script has three parts, each embedded below:

* `create_qr_overlay` : builds an in-memory multi-page overlay of QR images and
  caption texts using a reportlab canvas.  The canvas is modelled as a list of
  finished pages plus the pending drawing operations of the current page;
  `showPage` flushes the current page and `save` flushes once more when there
  are pending operations (reportlab semantics).  Coordinate arithmetic, done
  with Python floats in the source, is embedded exactly over `ℚ`
  (`mm = 72 / 25.4`, `inch = 72`); every quantity involved is an exact decimal.
* `merge_pdfs` : PyPDF2-based merge of the overlay onto the template.  The
  source fetches `template_pdf.pages[0]` on every loop iteration; PyPDF2
  returns the same cached page object each time and `merge_page` mutates it in
  place, while `PdfWriter.add_page` stores a snapshot (clone) of the page.
  The embedding therefore threads the mutable content of the template's first
  page through a fold, appending each overlay page's content to it.
* `runMain` : the `main` driver, modelled as the trace of externally visible
  events (stdout lines, file writes, abort) it produces for given CLI
  arguments and template file content.
-/

/-! ### Identifier formatting (source line 119: `f"{prefix}{current_num:04d}"`) -/

/-- Left-pad a string with `'0'` up to width `w` (semantics of Python's
zero-padded field). -/
def zfill (w : ℕ) (s : String) : String :=
  String.mk (List.replicate (w - s.length) '0') ++ s

/-- Python `f"{n:04d}"` for an integer `n`: minimum total width 4, the sign
occupying one column when `n < 0`, never truncating. -/
def pad4 (n : ℤ) : String :=
  if n < 0 then "-" ++ zfill 3 (toString n.natAbs) else zfill 4 (toString n.natAbs)

/-- Source line 119: `item_id = f"{prefix}{current_num:04d}"`. -/
def item_id (pfx : String) (n : ℤ) : String := pfx ++ pad4 n

/-- Source line 120: `url = f"{base_url}{item_id}"`. -/
def qrUrl (base_url pfx : String) (n : ℤ) : String := base_url ++ item_id pfx n

/-! ### Layout constants (source lines 62-97), exactly over `ℚ` -/

/-- reportlab `mm` unit: 72 / 25.4 points. -/
def mmPt : ℚ := 72 / 25.4

/-- reportlab `inch` unit: 72 points. -/
def inchPt : ℚ := 72

def cols : ℕ := 4
def rows : ℕ := 6
def label_width : ℚ := 38 * mmPt
def label_height : ℚ := 38 * mmPt
def left_margin : ℚ := 18 * mmPt
def top_margin : ℚ := 13 * mmPt
def horizontal_spacing : ℚ := 8 * mmPt
def start_x : ℚ := left_margin
def start_y : ℚ := 11 * inchPt - top_margin - label_height
def x_spacing : ℚ := label_width + horizontal_spacing
def page_height : ℚ := 11 * inchPt
def available_height : ℚ := page_height - 2 * top_margin
def vertical_gap : ℚ := (available_height - (rows : ℚ) * label_height) / ((rows : ℚ) - 1)
def y_spacing : ℚ := label_height + vertical_gap
def qr_size : ℚ := 32 * mmPt
def labels_per_page : ℕ := cols * rows

/-! ### Per-index grid geometry (source lines 105-116) -/

/-- `page_index = i % labels_per_page`. -/
def pageIndexOf (i : ℕ) : ℕ := i % labels_per_page

/-- `col = page_index % cols`. -/
def colOf (i : ℕ) : ℕ := pageIndexOf i % cols

/-- `row = page_index // cols`. -/
def rowOf (i : ℕ) : ℕ := pageIndexOf i / cols

/-- `label_left = start_x + (col * x_spacing)`. -/
def labelLeft (i : ℕ) : ℚ := start_x + (colOf i : ℚ) * x_spacing

/-- `label_bottom = start_y - (row * y_spacing)`. -/
def labelBottom (i : ℕ) : ℚ := start_y - (rowOf i : ℚ) * y_spacing

/-- `qr_x = label_left + (label_width - qr_size) / 2`. -/
def qrX (i : ℕ) : ℚ := labelLeft i + (label_width - qr_size) / 2

/-- `qr_y = label_bottom + 4 * mm`. -/
def qrY (i : ℕ) : ℚ := labelBottom i + 4 * mmPt

/-! ### The reportlab canvas model -/

/-- One drawing operation recorded on a page: `drawImage` (with the encoded QR
payload and bounding box), `setFont`, or `drawCentredString`. -/
inductive DrawOp where
  | image (payload : String) (x y w h : ℚ)
  | setFont (fontName : String) (size : ℚ)
  | text (x y : ℚ) (s : String)
deriving DecidableEq

/-- A reportlab canvas: the finished pages plus the pending operations of the
current page. -/
structure Canvas where
  pages : List (List DrawOp)
  current : List DrawOp
deriving DecidableEq

/-- `c.showPage()`: seal the current page and start a new one. -/
def Canvas.showPage (c : Canvas) : Canvas := ⟨c.pages ++ [c.current], []⟩

/-- Record one drawing operation on the current page. -/
def Canvas.draw (c : Canvas) (op : DrawOp) : Canvas :=
  { c with current := c.current ++ [op] }

/-- `c.save()`: reportlab flushes the current page iff it has pending
operations, then seals the document. -/
def Canvas.save (c : Canvas) : List (List DrawOp) :=
  if c.current.isEmpty then c.pages else c.pages ++ [c.current]

/-- Body of one loop iteration of `create_qr_overlay` after the page break
(source lines 105-135): draw the QR image, set the font, draw the caption. -/
def drawLabel (base_url pfx : String) (num : ℤ) (i : ℕ) (c : Canvas) : Canvas :=
  ((c.draw (.image (qrUrl base_url pfx num) (qrX i) (qrY i) qr_size qr_size)).draw
      (.setFont "Helvetica" 7)).draw
    (.text (qrX i + qr_size / 2) (qrY i - 1.5 * mmPt) (item_id pfx num))

/-- One iteration of the `for i in range(count)` loop (source lines 100-137):
a page break when `i > 0 and i % labels_per_page == 0`, then the label drawing,
then `current_num += 1`.  The state is the canvas and `current_num`. -/
def overlayStep (base_url pfx : String) (st : Canvas × ℤ) (i : ℕ) : Canvas × ℤ :=
  (drawLabel base_url pfx st.2 i
    (if 0 < i ∧ i % labels_per_page = 0 then st.1.showPage else st.1), st.2 + 1)

/-- `create_qr_overlay(start_num, count, base_url, prefix)` (source lines
43-141), as the list of pages of the saved overlay document. -/
def create_qr_overlay (start_num : ℤ) (count : ℕ) (base_url pfx : String) :
    List (List DrawOp) :=
  ((List.range count).foldl (overlayStep base_url pfx) (⟨[], []⟩, start_num)).1.save

/-! ### Closed forms for the overlay -/

/-- The three operations drawn for the label of index `i` carrying number
`num`. -/
def labelOpsN (base_url pfx : String) (num : ℤ) (i : ℕ) : List DrawOp :=
  [.image (qrUrl base_url pfx num) (qrX i) (qrY i) qr_size qr_size,
   .setFont "Helvetica" 7,
   .text (qrX i + qr_size / 2) (qrY i - 1.5 * mmPt) (item_id pfx num)]

/-- The operations of label `i` in a run starting at `s`: its number is
`s + i`. -/
def labelOps (base_url pfx : String) (s : ℤ) (i : ℕ) : List DrawOp :=
  labelOpsN base_url pfx (s + i) i

/-- The operations of the labels with indices `lo, lo+1, ..., hi-1`,
concatenated in order. -/
def sliceOps (base_url pfx : String) (s : ℤ) (lo hi : ℕ) : List DrawOp :=
  ((List.range (hi - lo)).map (fun k => labelOps base_url pfx s (lo + k))).flatten

/-- The caption string of a drawing operation, when it is a text operation. -/
def textOf? : DrawOp → Option String
  | .text _ _ s => some s
  | _ => none

/-- The caption strings of an overlay document, page by page in drawing
order. -/
def textsOf (pages : List (List DrawOp)) : List String :=
  pages.flatten.filterMap textOf?

/-! ### PyPDF2 merge (source lines 144-175) -/

/-- `merge_pdfs`, at the level of page content lists (`α` is the type of one
content item).  If the overlay is empty the loop body never runs, so
`template_pdf.pages[0]` is never evaluated and the writer holds no pages.
Otherwise the first template page's content is fetched once (PyPDF2 caches the
page object) and each iteration appends the current overlay page's content to
that shared mutable page (`merge_page`), then snapshots it into the writer
(`add_page` clones).  `none` models the uncaught `IndexError` raised by
`pages[0]` on a zero-page template. -/
def merge_pdfs (templatePages overlayPages : List (List α)) :
    Option (List (List α)) :=
  match overlayPages with
  | [] => some []
  | _ :: _ =>
    match templatePages with
    | [] => none
    | t0 :: _ =>
      some ((overlayPages.foldl
        (fun (st : List (List α) × List α) ov =>
          (st.1 ++ [st.2 ++ ov], st.2 ++ ov))
        ([], t0)).1)

/-! ### The `main` driver (source lines 178-251) -/

/-- One content item of a merged output page: a template artwork item or an
overlay drawing operation. -/
inductive Content where
  | tpl (k : ℕ)
  | op (o : DrawOp)
deriving DecidableEq

/-- An overlay page, re-read by PyPDF2 as page content. -/
def pageContent (pg : List DrawOp) : List Content := pg.map .op

/-- The bytes written to the output file: either the overlay buffer exactly as
reportlab serialised it (`--no-template` path, `f.write(overlay.getvalue())`),
or the PyPDF2 writer's serialisation of the merged pages. -/
inductive OutBytes where
  | overlayBuffer (pages : List (List DrawOp))
  | writerBytes (pages : List (List Content))
deriving DecidableEq

/-- An externally visible event of a run. -/
inductive Event where
  | stdoutLine (s : String)
  | fileWrite (path : String) (bytes : OutBytes)
  | abort (msg : String)
deriving DecidableEq

/-- Project the file-write events out of a trace. -/
def eventWrite? (e : Event) : Option (String × OutBytes) :=
  match e with
  | .fileWrite path bytes => some (path, bytes)
  | _ => none

/-- The parsed CLI arguments (source lines 179-224). -/
structure Args where
  start : ℤ
  count : ℤ
  output : String
  template : String
  base_url : String
  pfx : String
  no_template : Bool
deriving DecidableEq

/-- Source line 250: `sheets = (args.count + 23) // 24`.  Lean's `/` on `ℤ`
agrees with Python's floor division for the positive divisor 24. -/
def sheets (count : ℤ) : ℤ := (count + 23) / 24

/-- The three success lines printed at the end of `main` (lines 246-251). -/
def successLines (a : Args) : List Event :=
  [.stdoutLine ("âœ“ Successfully created " ++ a.output),
   .stdoutLine ("  Labels: " ++ a.pfx ++ pad4 a.start ++ " through " ++
     a.pfx ++ pad4 (a.start + a.count - 1)),
   .stdoutLine ("  Total sheets: " ++ toString (sheets a.count))]

/-- The trace of `main` (source lines 224-251) given the parsed arguments and
the content of the template file (`none` when the template is missing or
unreadable, in which case `PdfReader` raises and the run aborts). -/
def runMain (a : Args) (tplFile : Option (List (List Content))) : List Event :=
  let genLine := Event.stdoutLine ("Generating " ++ toString a.count ++
    " labels starting from " ++ a.pfx ++ pad4 a.start ++ "...")
  let ov := create_qr_overlay a.start a.count.toNat a.base_url a.pfx
  if a.no_template then
    [genLine, .fileWrite a.output (.overlayBuffer ov),
     .stdoutLine "Generated QR codes without template"] ++ successLines a
  else
    [genLine, .stdoutLine ("Merging with template: " ++ a.template)] ++
    match tplFile with
    | none => [.abort "template unreadable"]
    | some tp =>
      match merge_pdfs tp (ov.map pageContent) with
      | none => [.abort "IndexError: template has no pages"]
      | some merged =>
        [.fileWrite a.output (.writerBytes merged)] ++ successLines a

/-! ## Helper lemmas -/

theorem labels_per_page_eq : labels_per_page = 24 := rfl

theorem mk_nil_append (s : String) : String.mk [] ++ s = s := by
  cases s
  rfl

theorem drawLabel_eq (b p : String) (num : ℤ) (i : ℕ) (c : Canvas) :
    drawLabel b p num i c = ⟨c.pages, c.current ++ labelOpsN b p num i⟩ := by
  simp [drawLabel, Canvas.draw, labelOpsN]

theorem overlayStep_no_break (b p : String) (pg : List (List DrawOp))
    (cur : List DrawOp) (num : ℤ) (i : ℕ)
    (h : ¬(0 < i ∧ i % labels_per_page = 0)) :
    overlayStep b p (⟨pg, cur⟩, num) i =
      (⟨pg, cur ++ labelOpsN b p num i⟩, num + 1) := by
  unfold overlayStep
  rw [if_neg h, drawLabel_eq]

theorem overlayStep_break (b p : String) (pg : List (List DrawOp))
    (cur : List DrawOp) (num : ℤ) (i : ℕ)
    (h : 0 < i ∧ i % labels_per_page = 0) :
    overlayStep b p (⟨pg, cur⟩, num) i =
      (⟨pg ++ [cur], labelOpsN b p num i⟩, num + 1) := by
  unfold overlayStep
  rw [if_pos h, drawLabel_eq]
  rfl

theorem sliceOps_empty (b p : String) (s : ℤ) (lo hi : ℕ) (h : hi ≤ lo) :
    sliceOps b p s lo hi = [] := by
  simp [sliceOps, Nat.sub_eq_zero_of_le h]

theorem sliceOps_snoc (b p : String) (s : ℤ) (lo hi : ℕ) (h : lo ≤ hi) :
    sliceOps b p s lo hi ++ labelOps b p s hi = sliceOps b p s lo (hi + 1) := by
  simp only [sliceOps]
  have h1 : hi + 1 - lo = (hi - lo) + 1 := by omega
  have h2 : lo + (hi - lo) = hi := by omega
  rw [h1, List.range_succ, List.map_append, List.flatten_append]
  simp [h2]

theorem sliceOps_single (b p : String) (s : ℤ) (i : ℕ) :
    sliceOps b p s i (i + 1) = labelOps b p s i := by
  have h1 : i + 1 - i = 1 := by omega
  simp only [sliceOps, h1]
  rw [show List.range 1 = [0] from rfl]
  simp

theorem sliceOps_isEmpty (b p : String) (s : ℤ) (lo hi : ℕ) (h : lo < hi) :
    (sliceOps b p s lo hi).isEmpty = false := by
  have h1 : hi - lo = (hi - lo - 1) + 1 := by omega
  simp only [sliceOps]
  rw [h1, List.range_succ, List.map_append, List.flatten_append]
  simp [labelOps, labelOpsN]

theorem overlay_fold (b p : String) (s : ℤ) (n : ℕ) (hn : 1 ≤ n) :
    (List.range n).foldl (overlayStep b p) (⟨[], []⟩, s) =
      (⟨(List.range ((n - 1) / 24)).map
          (fun j => sliceOps b p s (24 * j) (24 * j + 24)),
        sliceOps b p s (24 * ((n - 1) / 24)) n⟩, s + n) := by
  induction n with
  | zero => omega
  | succ m ih =>
    rcases Nat.eq_zero_or_pos m with hm | hm
    · subst hm
      rw [show List.range 1 = [0] from rfl]
      simp only [List.foldl_cons, List.foldl_nil]
      rw [overlayStep_no_break b p [] [] s 0 (by simp)]
      rw [Prod.mk.injEq, Canvas.mk.injEq]
      refine ⟨⟨rfl, ?_⟩, by push_cast; ring⟩
      show [] ++ labelOpsN b p s 0 = sliceOps b p s 0 (0 + 1)
      rw [sliceOps_single]
      simp [labelOps]
    · rw [List.range_succ, List.foldl_append, ih hm]
      simp only [List.foldl_cons, List.foldl_nil]
      have hmm2 : m + 1 - 1 = m := by omega
      by_cases hc : m % 24 = 0
      · have h24 : 24 ≤ m := by omega
        have hq : (m - 1) / 24 + 1 = m / 24 := by omega
        have hm24 : 24 * (m / 24) = m := by omega
        rw [overlayStep_break b p _ _ _ m ⟨hm, hc⟩]
        rw [Prod.mk.injEq, Canvas.mk.injEq]
        refine ⟨⟨?_, ?_⟩, by push_cast; ring⟩
        · have hB : sliceOps b p s (24 * ((m - 1) / 24)) m =
              sliceOps b p s (24 * ((m - 1) / 24)) (24 * ((m - 1) / 24) + 24) := by
            congr 1
            omega
          rw [hB, hmm2, ← hq, List.range_succ, List.map_append]
          simp only [List.map_cons, List.map_nil]
        · rw [hmm2, hm24]
          show labelOpsN b p (s + (m : ℤ)) m = sliceOps b p s m (m + 1)
          rw [sliceOps_single]
          rfl
      · rw [overlayStep_no_break b p _ _ _ m
          (by simp only [labels_per_page_eq]; omega)]
        rw [Prod.mk.injEq, Canvas.mk.injEq]
        have hq2 : (m + 1 - 1) / 24 = (m - 1) / 24 := by omega
        refine ⟨⟨?_, ?_⟩, by push_cast; ring⟩
        · rw [hq2]
        · rw [hq2]
          exact sliceOps_snoc b p s _ m (by omega)

theorem create_qr_overlay_eq (s : ℤ) (n : ℕ) (b p : String) :
    create_qr_overlay s n b p =
      (List.range ((n + 23) / 24)).map
        (fun j => sliceOps b p s (24 * j) (min (24 * j + 24) n)) := by
  rcases Nat.eq_zero_or_pos n with h0 | h1
  · subst h0
    rfl
  · unfold create_qr_overlay
    rw [overlay_fold b p s n h1]
    have hne : (sliceOps b p s (24 * ((n - 1) / 24)) n).isEmpty = false :=
      sliceOps_isEmpty b p s _ n (by omega)
    simp only [Canvas.save, hne, Bool.false_eq_true, if_false]
    have hQ : (n + 23) / 24 = (n - 1) / 24 + 1 := by omega
    rw [hQ, List.range_succ, List.map_append]
    simp only [List.map_cons, List.map_nil]
    congr 1
    · apply List.map_congr_left
      intro j hj
      rw [List.mem_range] at hj
      congr 1
      omega
    · congr 2
      omega

theorem sliceOps_append (b p : String) (s : ℤ) (lo mid hi : ℕ)
    (h1 : lo ≤ mid) (h2 : mid ≤ hi) :
    sliceOps b p s lo mid ++ sliceOps b p s mid hi = sliceOps b p s lo hi := by
  simp only [sliceOps]
  rw [← List.flatten_append]
  congr 1
  have h3 : hi - lo = (mid - lo) + (hi - mid) := by omega
  rw [h3, List.range_add (mid - lo) (hi - mid), List.map_append, List.map_map]
  congr 1
  apply List.map_congr_left
  intro k _
  have h4 : lo + (mid - lo + k) = mid + k := by omega
  simp [Function.comp, h4]

theorem flatten_slices (b p : String) (s : ℤ) (n : ℕ) (Q : ℕ) :
    ((List.range Q).map
        (fun j => sliceOps b p s (24 * j) (min (24 * j + 24) n))).flatten =
      sliceOps b p s 0 (min (24 * Q) n) := by
  induction Q with
  | zero =>
    have h0 : min (24 * 0) n = 0 := by omega
    rw [h0]
    simp [sliceOps_empty b p s 0 0 le_rfl]
  | succ q ih =>
    rw [List.range_succ, List.map_append, List.flatten_append, ih]
    simp only [List.map_cons, List.map_nil, List.flatten_cons, List.flatten_nil,
      List.append_nil]
    rcases le_or_lt n (24 * q) with h | h
    · rw [sliceOps_empty b p s (24 * q) (min (24 * q + 24) n) (by omega),
        List.append_nil]
      congr 1
      omega
    · have hmin : min (24 * q) n = 24 * q := by omega
      rw [hmin,
        sliceOps_append b p s 0 (24 * q) (min (24 * q + 24) n) (by omega) (by omega)]
      congr 1

theorem flatten_create (s : ℤ) (n : ℕ) (b p : String) :
    (create_qr_overlay s n b p).flatten = sliceOps b p s 0 n := by
  rw [create_qr_overlay_eq, flatten_slices]
  congr 1
  omega

theorem textsOf_sliceOps_zero (b p : String) (s : ℤ) (n : ℕ) :
    (sliceOps b p s 0 n).filterMap textOf? =
      (List.range n).map (fun i : ℕ => item_id p (s + i)) := by
  induction n with
  | zero => simp [sliceOps]
  | succ m ih =>
    rw [← sliceOps_snoc b p s 0 m (by omega), List.filterMap_append, ih,
      List.range_succ, List.map_append]
    congr 1

theorem textsOf_create (s : ℤ) (n : ℕ) (b p : String) :
    textsOf (create_qr_overlay s n b p) =
      (List.range n).map (fun i : ℕ => item_id p (s + i)) := by
  unfold textsOf
  rw [flatten_create, textsOf_sliceOps_zero]

theorem mergeFold {α : Type} (t0 : List α) (ovs : List (List α)) :
    ovs.foldl
        (fun (st : List (List α) × List α) ov =>
          (st.1 ++ [st.2 ++ ov], st.2 ++ ov))
        ([], t0) =
      ((List.range ovs.length).map (fun i => t0 ++ (ovs.take (i + 1)).flatten),
       t0 ++ ovs.flatten) := by
  induction ovs using List.reverseRecOn with
  | nil => simp
  | append_singleton l a ih =>
    rw [List.foldl_append, ih]
    simp only [List.foldl_cons, List.foldl_nil]
    rw [Prod.mk.injEq]
    constructor
    · rw [List.length_append, List.length_cons, List.length_nil, Nat.add_zero,
        List.range_succ, List.map_append]
      simp only [List.map_cons, List.map_nil]
      congr 1
      · apply List.map_congr_left
        intro i hi
        rw [List.mem_range] at hi
        rw [List.take_append_of_le_length (by omega)]
      · rw [show l.length + 1 = (l ++ [a]).length from by simp, List.take_length]
        simp [List.flatten_append]
    · simp [List.flatten_append]

theorem merge_pdfs_closed {α : Type} (t0 : List α) (ts ovs : List (List α)) :
    merge_pdfs (t0 :: ts) ovs =
      some ((List.range ovs.length).map
        (fun i => t0 ++ (ovs.take (i + 1)).flatten)) := by
  cases ovs with
  | nil => rfl
  | cons o os =>
    simp only [merge_pdfs]
    rw [mergeFold]

/-! ## Claim theorems -/

/-- Claim C2: for every run with start number `s`, count `n >= 1` and prefix
`p`, the identifiers drawn on the overlay are exactly the strings
`p ++ pad4 (s + i)` for `i = 0, 1, ..., n - 1`, in that order — contiguous
sequence numbers starting at `s`; in particular `start = 5`, `count = 3`,
`prefix = "KEG-"` yields `KEG-0005`, `KEG-0006`, `KEG-0007` in that order. -/
theorem claim_c2 (s : ℤ) (n : ℕ) (b p : String) (hn : 1 ≤ n) :
    textsOf (create_qr_overlay s n b p) =
      (List.range n).map (fun i : ℕ => p ++ pad4 (s + i)) ∧
    textsOf (create_qr_overlay 5 3 b "KEG-") =
      ["KEG-0005", "KEG-0006", "KEG-0007"] := by
  constructor
  · rw [textsOf_create]
    rfl
  · rw [textsOf_create]
    decide

theorem claim_c2_witness :
    textsOf (create_qr_overlay 5 3 "https://example.com/item/" "KEG-") =
      (List.range 3).map (fun i : ℕ => "KEG-" ++ pad4 (5 + i)) :=
  (claim_c2 5 3 "https://example.com/item/" "KEG-" (by decide)).1

/-- Claim C5: zero-padding of the sequence number is a minimum width of 4,
never a truncation: any nonnegative number whose decimal rendering exceeds 4
digits is rendered in full, and `start = 9999, count = 2` produces identifiers
ending in `9999` and `10000`. -/
theorem claim_c5 (n : ℤ) (h0 : 0 ≤ n) (hlen : 4 < (toString n.natAbs).length) :
    pad4 n = toString n.natAbs ∧
    ∀ b p : String, textsOf (create_qr_overlay 9999 2 b p) =
      [p ++ "9999", p ++ "10000"] := by
  constructor
  · unfold pad4
    rw [if_neg (by omega)]
    unfold zfill
    rw [show 4 - (toString n.natAbs).length = 0 from by omega,
      List.replicate_zero, mk_nil_append]
  · intro b p
    rw [textsOf_create, show List.range 2 = [0, 1] from rfl]
    simp only [List.map_cons, List.map_nil, item_id]
    norm_num
    rw [show pad4 9999 = "9999" from by decide,
      show pad4 10000 = "10000" from by decide]
    exact ⟨rfl, rfl⟩

theorem claim_c5_witness :
    pad4 12345 = toString (12345 : ℤ).natAbs ∧
    textsOf (create_qr_overlay 9999 2 "u" "KEG-") = ["KEG-9999", "KEG-10000"] :=
  ⟨(claim_c5 12345 (by decide) (by decide)).1,
   (claim_c5 12345 (by decide) (by decide)).2 "u" "KEG-"⟩

/-- Claim C3: the overlay starts a new page after every 24 labels: for any
count `n >= 1` the overlay has `(n + 23) / 24` pages, the operations of label
`i` appear on page `i / 24` (0-based), and for `count = 25` the overlay has
exactly 2 pages, the first holding the operations of labels 0 through 23 and
the second holding label 24 alone. -/
theorem claim_c3 (s : ℤ) (b p : String) (n i : ℕ) (h1 : 1 ≤ n) (hi : i < n) :
    (create_qr_overlay s n b p).length = (n + 23) / 24 ∧
    i / 24 < (create_qr_overlay s n b p).length ∧
    labelOps b p s i <:+: (create_qr_overlay s n b p).getD (i / 24) [] ∧
    create_qr_overlay s 25 b p = [sliceOps b p s 0 24, labelOps b p s 24] := by
  have hlen : (create_qr_overlay s n b p).length = (n + 23) / 24 := by
    rw [create_qr_overlay_eq]
    simp
  refine ⟨hlen, by omega, ?_, ?_⟩
  · have hidx : i / 24 < ((List.range ((n + 23) / 24)).map
        (fun j => sliceOps b p s (24 * j) (min (24 * j + 24) n))).length := by
      simp only [List.length_map, List.length_range]
      omega
    rw [create_qr_overlay_eq, List.getD_eq_getElem _ _ hidx, List.getElem_map,
      List.getElem_range]
    unfold sliceOps
    apply List.infix_of_mem_flatten
    rw [List.mem_map]
    refine ⟨i - 24 * (i / 24), ?_, ?_⟩
    · rw [List.mem_range]
      omega
    · congr 1
      omega
  · rw [create_qr_overlay_eq,
      show (25 + 23) / 24 = 2 from rfl, show List.range 2 = [0, 1] from rfl]
    simp only [List.map_cons, List.map_nil]
    rw [show min (24 * 0 + 24) 25 = 24 from rfl, show (24 * 0 : ℕ) = 0 from rfl,
      show (24 * 1 : ℕ) = 24 from rfl, show min (24 * 1 + 24) 25 = 25 from rfl,
      show (25 : ℕ) = 24 + 1 from rfl, sliceOps_single]

theorem claim_c3_witness :
    (create_qr_overlay 1 25 "u" "KEG-").length = (25 + 23) / 24 ∧
    24 / 24 < (create_qr_overlay 1 25 "u" "KEG-").length ∧
    labelOps "u" "KEG-" 1 24 <:+: (create_qr_overlay 1 25 "u" "KEG-").getD (24 / 24) [] ∧
    create_qr_overlay 1 25 "u" "KEG-" =
      [sliceOps "u" "KEG-" 1 0 24, labelOps "u" "KEG-" 1 24] :=
  claim_c3 1 "u" "KEG-" 25 24 (by decide) (by decide)

/-- Claim C8: for every label index `i` the computed QR bounding box
`(qrX i, qrY i, qrX i + qr_size, qrY i + qr_size)` lies entirely within the
38 mm by 38 mm bounding box of the cell assigned to `i`, and it does not
overlap the cell of any other slot `j` on the page (`pageIndexOf j` different
from `pageIndexOf i`), in particular no adjacent cell. -/
theorem claim_c8 (i j : ℕ) (hne : pageIndexOf i ≠ pageIndexOf j) :
    (labelLeft i ≤ qrX i ∧ qrX i + qr_size ≤ labelLeft i + label_width ∧
     labelBottom i ≤ qrY i ∧ qrY i + qr_size ≤ labelBottom i + label_height) ∧
    (qrX i + qr_size ≤ labelLeft j ∨ labelLeft j + label_width ≤ qrX i ∨
     qrY i + qr_size ≤ labelBottom j ∨ labelBottom j + label_height ≤ qrY i) := by
  have hm : mmPt = 360 / 127 := by norm_num [mmPt]
  constructor
  · refine ⟨?_, ?_, ?_, ?_⟩ <;>
      simp only [qrX, qrY, label_width, label_height, qr_size, hm] <;>
      linarith
  · have hcr : colOf i ≠ colOf j ∨ rowOf i ≠ rowOf j := by
      by_contra hco
      push_neg at hco
      apply hne
      have h1 := hco.1
      have h2 := hco.2
      simp only [colOf, rowOf, pageIndexOf, labels_per_page_eq, cols] at h1 h2 ⊢
      omega
    have hys : y_spacing = 13680 / 127 + 9144 / 635 := by
      simp only [y_spacing, vertical_gap, available_height, page_height,
        top_margin, label_height, rows, inchPt, mmPt]
      norm_num
    rcases hcr with hc | hr
    · rcases Nat.lt_or_ge (colOf i) (colOf j) with hlt | hge
      · left
        have hcast : (colOf i : ℚ) + 1 ≤ (colOf j : ℚ) := by exact_mod_cast hlt
        simp only [qrX, labelLeft, x_spacing, label_width, horizontal_spacing,
          qr_size, hm]
        linarith
      · have hlt2 : colOf j < colOf i := by omega
        right; left
        have hcast : (colOf j : ℚ) + 1 ≤ (colOf i : ℚ) := by exact_mod_cast hlt2
        simp only [qrX, labelLeft, x_spacing, label_width, horizontal_spacing,
          qr_size, hm]
        linarith
    · rcases Nat.lt_or_ge (rowOf i) (rowOf j) with hlt | hge
      · right; right; right
        have hcast : (rowOf i : ℚ) + 1 ≤ (rowOf j : ℚ) := by exact_mod_cast hlt
        simp only [qrY, labelBottom, hys, label_height, qr_size, hm]
        linarith
      · have hlt2 : rowOf j < rowOf i := by omega
        right; right; left
        have hcast : (rowOf j : ℚ) + 1 ≤ (rowOf i : ℚ) := by exact_mod_cast hlt2
        simp only [qrY, labelBottom, hys, label_height, qr_size, hm]
        linarith

theorem claim_c8_witness :
    (labelLeft 0 ≤ qrX 0 ∧ qrX 0 + qr_size ≤ labelLeft 0 + label_width ∧
     labelBottom 0 ≤ qrY 0 ∧ qrY 0 + qr_size ≤ labelBottom 0 + label_height) ∧
    (qrX 0 + qr_size ≤ labelLeft 1 ∨ labelLeft 1 + label_width ≤ qrX 0 ∨
     qrY 0 + qr_size ≤ labelBottom 1 ∨ labelBottom 1 + label_height ≤ qrY 0) :=
  claim_c8 0 1 (by decide)

/-- Claim C1 is violated by the code: `merge_pdfs` fetches the same cached
template page object on every iteration and `merge_page` mutates it in place,
so output page `i` carries the template content plus the content of ALL
overlay pages `0..i`, not just overlay page `i`.  At template first-page
content `[0]` and two-page overlay `[[1], [2]]` the claim requires output
page 1 (0-based) to be `[0, 2]`; the code produces `[0, 1, 2]`, which still
contains item `1` from overlay page 0.  This theorem evaluates the embedded
code at that failing input. -/
theorem claim_c1_code_eval :
    merge_pdfs ([[0]] : List (List ℕ)) [[1], [2]] = some [[0, 1], [0, 1, 2]] ∧
    (merge_pdfs ([[0]] : List (List ℕ)) [[1], [2]]).getD [] ≠ [[0, 1], [0, 2]] ∧
    (1 : ℕ) ∈ ((merge_pdfs ([[0]] : List (List ℕ)) [[1], [2]]).getD []).getD 1 [] := by
  decide

/-- Claim C7: in template-merge mode the output document has exactly as many
pages as the overlay document, regardless of how many pages the template file
has, and only the template's first page is ever read (two templates with the
same first page produce identical output). -/
theorem claim_c7 {α : Type} (t t' o : List (List α)) (ht : 0 < t.length)
    (hh : t.head? = t'.head?) :
    ∃ out, merge_pdfs t o = some out ∧ out.length = o.length ∧
      merge_pdfs t' o = merge_pdfs t o := by
  cases t with
  | nil => simp at ht
  | cons t0 ts =>
    cases t' with
    | nil => simp at hh
    | cons t0' ts' =>
      rw [List.head?_cons, List.head?_cons, Option.some.injEq] at hh
      subst hh
      refine ⟨_, merge_pdfs_closed t0 ts o, by simp, ?_⟩
      cases o with
      | nil => rfl
      | cons _ _ => rfl

theorem claim_c7_witness :
    ∃ out, merge_pdfs ([[0], [9]] : List (List ℕ)) [[1], [2]] = some out ∧
      out.length = ([[1], [2]] : List (List ℕ)).length ∧
      merge_pdfs ([[0]] : List (List ℕ)) [[1], [2]] =
        merge_pdfs ([[0], [9]] : List (List ℕ)) [[1], [2]] :=
  claim_c7 [[0], [9]] [[0]] [[1], [2]] (by decide) (by decide)

theorem sheets_eq_ceil (c : ℤ) : sheets c = ⌈(c : ℚ) / 24⌉ := by
  have h1 : 24 * sheets c - 24 < c := by unfold sheets; omega
  have h2 : c ≤ 24 * sheets c := by unfold sheets; omega
  have h1q : 24 * (sheets c : ℚ) - 24 < (c : ℚ) := by exact_mod_cast h1
  have h2q : (c : ℚ) ≤ 24 * (sheets c : ℚ) := by exact_mod_cast h2
  symm
  rw [Int.ceil_eq_iff]
  constructor
  · rw [lt_div_iff₀ (by norm_num : (0 : ℚ) < 24)]
    linarith
  · rw [div_le_iff₀ (by norm_num : (0 : ℚ) < 24)]
    linarith

/-- Claim C4: the sheet count printed in the run summary equals
`⌈count / 24⌉` for every count; in particular 1 for `count = 24`, 2 for
`count = 25`, 2 for `count = 48`, and 3 for `count = 49`. -/
theorem claim_c4 :
    (∀ c : ℤ, sheets c = ⌈(c : ℚ) / 24⌉) ∧
    sheets 24 = 1 ∧ sheets 25 = 2 ∧ sheets 48 = 2 ∧ sheets 49 = 3 :=
  ⟨sheets_eq_ceil, by decide, by decide, by decide, by decide⟩

/-- Claim C6: when `--no-template` is given the merge step is skipped entirely
and the bytes written to the output file are exactly the bytes of the overlay
buffer: the single file write of the run carries the reportlab overlay buffer
itself (`OutBytes.overlayBuffer`), not a PyPDF2 writer re-serialisation. -/
theorem claim_c6 (a : Args) (tplFile : Option (List (List Content)))
    (h : a.no_template = true) :
    (runMain a tplFile).filterMap eventWrite? =
      [(a.output, OutBytes.overlayBuffer
        (create_qr_overlay a.start a.count.toNat a.base_url a.pfx))] := by
  simp [runMain, h, successLines, eventWrite?]

theorem claim_c6_witness :
    (runMain ⟨1, 3, "output/labels.pdf", "templates/SL655.pdf",
        "https://example.com/item/", "KEG-", true⟩ none).filterMap eventWrite? =
      [("output/labels.pdf", OutBytes.overlayBuffer
        (create_qr_overlay 1 (3 : ℤ).toNat "https://example.com/item/" "KEG-"))] :=
  claim_c6 ⟨1, 3, "output/labels.pdf", "templates/SL655.pdf",
    "https://example.com/item/", "KEG-", true⟩ none rfl

/-- Claim C9: the output file is written only after the full overlay for all
count labels has been built and, in template mode, the template read and every
overlay page merged.  With an unreadable template the trace has no file write
and ends in an abort; with a readable template of at least one page the run's
single write is the merged document built from the complete overlay. -/
theorem claim_c9 (a : Args) (h : a.no_template = false) :
    ((runMain a none).filterMap eventWrite? = [] ∧
      (∃ msg, Event.abort msg ∈ runMain a none)) ∧
    (∀ tp : List (List Content), 0 < tp.length →
      ∃ merged,
        merge_pdfs tp ((create_qr_overlay a.start a.count.toNat a.base_url
          a.pfx).map pageContent) = some merged ∧
        (runMain a (some tp)).filterMap eventWrite? =
          [(a.output, OutBytes.writerBytes merged)]) := by
  constructor
  · constructor
    · simp [runMain, h, eventWrite?]
    · exact ⟨"template unreadable", by simp [runMain, h]⟩
  · intro tp htp
    cases tp with
    | nil => simp at htp
    | cons t0 ts =>
      refine ⟨_, merge_pdfs_closed t0 ts _, ?_⟩
      simp [runMain, h, merge_pdfs_closed, successLines, eventWrite?]

theorem claim_c9_witness :
    ((runMain ⟨1, 1, "o.pdf", "t.pdf", "u", "KEG-", false⟩ none).filterMap
        eventWrite? = [] ∧
      (∃ msg, Event.abort msg ∈
        runMain ⟨1, 1, "o.pdf", "t.pdf", "u", "KEG-", false⟩ none)) ∧
    (∃ merged,
      merge_pdfs [[Content.tpl 0]]
        ((create_qr_overlay 1 (1 : ℤ).toNat "u" "KEG-").map pageContent) =
          some merged ∧
      (runMain ⟨1, 1, "o.pdf", "t.pdf", "u", "KEG-", false⟩
          (some [[Content.tpl 0]])).filterMap eventWrite? =
        [("o.pdf", OutBytes.writerBytes merged)]) :=
  ⟨(claim_c9 ⟨1, 1, "o.pdf", "t.pdf", "u", "KEG-", false⟩ rfl).1,
   (claim_c9 ⟨1, 1, "o.pdf", "t.pdf", "u", "KEG-", false⟩ rfl).2
     [[Content.tpl 0]] (by decide)⟩

/-- Claim C10: for `count = 0` the drawing loop draws no labels (the overlay
has no pages), yet the program still writes an output file and prints a
summary whose label range runs from `pfx ++ pad4 start` through
`pfx ++ pad4 (start - 1)` — an inverted, empty range — while reporting 0
total sheets. -/
theorem claim_c10 (a : Args) (tp : List (List Content)) (h0 : a.count = 0) :
    create_qr_overlay a.start a.count.toNat a.base_url a.pfx = [] ∧
    ((runMain a (some tp)).filterMap eventWrite?).length = 1 ∧
    Event.stdoutLine ("  Labels: " ++ a.pfx ++ pad4 a.start ++ " through " ++
      a.pfx ++ pad4 (a.start - 1)) ∈ runMain a (some tp) ∧
    sheets a.count = 0 ∧
    Event.stdoutLine "  Total sheets: 0" ∈ runMain a (some tp) := by
  have hov : create_qr_overlay a.start a.count.toNat a.base_url a.pfx = [] := by
    rw [h0]
    rfl
  have hsh : sheets a.count = 0 := by
    rw [h0]
    rfl
  have hlbl : a.start + a.count - 1 = a.start - 1 := by
    rw [h0]
    ring
  have hstr : "  Total sheets: " ++ toString (sheets a.count) =
      "  Total sheets: 0" := by
    rw [hsh]
    decide
  refine ⟨hov, ?_, ?_, hsh, ?_⟩
  · cases hnt : a.no_template
    · simp [runMain, hnt, hov, eventWrite?, merge_pdfs, successLines]
    · simp [runMain, hnt, eventWrite?, successLines]
  · cases hnt : a.no_template
    · simp [runMain, hnt, hov, merge_pdfs, successLines, hlbl]
    · simp [runMain, hnt, successLines, hlbl]
  · cases hnt : a.no_template
    · simp [runMain, hnt, hov, merge_pdfs, successLines, hstr]
    · simp [runMain, hnt, successLines, hstr]

theorem claim_c10_witness :
    create_qr_overlay 7 (0 : ℤ).toNat "u" "KEG-" = [] ∧
    ((runMain ⟨7, 0, "o.pdf", "t.pdf", "u", "KEG-", false⟩
        (some [[Content.tpl 0]])).filterMap eventWrite?).length = 1 ∧
    Event.stdoutLine ("  Labels: " ++ "KEG-" ++ pad4 7 ++ " through " ++
        "KEG-" ++ pad4 (7 - 1)) ∈
      runMain ⟨7, 0, "o.pdf", "t.pdf", "u", "KEG-", false⟩
        (some [[Content.tpl 0]]) ∧
    sheets 0 = 0 ∧
    Event.stdoutLine "  Total sheets: 0" ∈
      runMain ⟨7, 0, "o.pdf", "t.pdf", "u", "KEG-", false⟩
        (some [[Content.tpl 0]]) :=
  claim_c10 ⟨7, 0, "o.pdf", "t.pdf", "u", "KEG-", false⟩ [[Content.tpl 0]] rfl
